import Mathlib

/-!
Shallow embedding of the cloudflare-loadbalancer-monitor client.

Source files embedded here:
* `src/pages/Dashboard.tsx` — `fetchAllPools` (paginated fetch), the
  `load` closure of the poll loop (diff pass, sound notification, state
  updates), activation/teardown of the `useEffect` loop, and the render
  selection between spinner, error panel and pools table.
* `src/App.tsx` — a second, monolithic variant of the same dashboard with
  its own `fetchAllPools`; its diff pass is textually identical to the
  Dashboard one and is embedded once.
* `src/helpers/audio.ts` — `playOnlineSound` / `playOfflineSound` cues.

JS `undefined` is modelled as `Option.none`; machine numbers are `Nat`
(page counters and HTTP statuses are small non-negative integers in the
source). Network behaviour is a function from the requested page number
to the observed HTTP response, and the unbounded `while (true)` loop is
fuel-indexed.
-/

namespace CFMon

/-- A transition event, pushed as `changes.push(cur ? "online" : "offline")`
in the diff pass of `load`. -/
inductive Change where
  | online
  | offline
deriving DecidableEq, Repr

/-- An audio cue: one call of `playOfflineSound` or `playOnlineSound`
(`src/helpers/audio.ts`). -/
inductive Cue where
  | offline
  | online
deriving DecidableEq, Repr

/-- Structure `CFOrigin` (Dashboard.tsx / App.tsx). Optional fields are `Option`,
`none` standing for the JS `undefined`. -/
structure CFOrigin where
  name : Option String
  address : Option String
  enabled : Option Bool
  healthy : Option Bool
deriving DecidableEq, Repr

/-- Structure `CFPool` (Dashboard.tsx / App.tsx). -/
structure CFPool where
  id : String
  name : String
  description : Option String
  origins : List CFOrigin
  healthy : Option Bool
deriving DecidableEq, Repr

/-- Structure `CFResultInfo`, that is `\x7b total_pages?: number \x7d`. -/
structure CFResultInfo where
  total_pages : Option Nat
deriving DecidableEq, Repr

/-- Structure `CFListResponse<CFPool>`. The `errors : unknown` field is modelled as
the JSON text of the `errors` value when present and truthy (`none`
otherwise); the source only ever routes it through `JSON.stringify`. -/
structure CFListResponse where
  success : Bool
  result : List CFPool
  result_info : Option CFResultInfo
  errors : Option String
deriving DecidableEq, Repr

/-- One HTTP response as observed by `fetchAllPools`: status code,
`res.statusText`, the text body (`res.text()`), and the parsed JSON body
(`res.json()`; parse failures are not modelled). -/
structure HttpResponse where
  status : Nat
  statusText : String
  bodyText : String
  json : CFListResponse
deriving DecidableEq, Repr

/-- Predicate `res.ok` of the Fetch API: status in the inclusive range 200–299. -/
def HttpResponse.ok (r : HttpResponse) : Bool :=
  decide (200 ≤ r.status) && decide (r.status < 300)

/-! ### Health snapshot (`Map<string, boolean | undefined>`)

`prevStatusRef.current` and `nextMap` are JS `Map`s from synthesized
origin keys to `boolean | undefined`. A `Map` is an insertion-ordered
association list with unique keys; `set` overwrites in place, `get`
returns `undefined` both for an absent key and for a key recorded as
`undefined`. -/

/-- The snapshot: insertion-ordered association list. -/
abbrev Snapshot := List (String × Option Bool)

/-- Lookup `Map.get`, distinguishing an absent key (`none`) from a stored value
(`some v`, where `v` itself may be the stored `undefined`). -/
def snapFind (m : Snapshot) (k : String) : Option (Option Bool) :=
  (m.find? (fun e => e.1 == k)).map (fun e => e.2)

/-- Lookup `prevStatusRef.current.get(key)` as the source consumes it: the JS
`boolean | undefined`, with the absent-key `undefined` and a stored
`undefined` collapsed, exactly as `Map.get` behaves. -/
def snapGet (m : Snapshot) (k : String) : Option Bool :=
  (snapFind m k).getD none

/-- Update `Map.set`: overwrite in place when the key exists, else append. -/
def snapSet (m : Snapshot) (k : String) (v : Option Bool) : Snapshot :=
  if m.any (fun e => e.1 == k) then
    m.map (fun e => if e.1 == k then (k, v) else e)
  else
    m ++ [(k, v)]

/-- Fold a list of writes into a snapshot with `Map.set`. -/
def snapWriteAll (m : Snapshot) (ws : List (String × Option Bool)) : Snapshot :=
  ws.foldl (fun acc w => snapSet acc w.1 w.2) m

/-! ### The diff pass of `load` (Dashboard.tsx lines 253–277; the block in
App.tsx lines 404–428 is textually identical). -/

/-- JS `a || b` on strings: the empty string is falsy. -/
def jsOrStr (a b : String) : String :=
  if a = "" then b else a

/-- An optional string as the JS falsiness test sees it: `undefined`
behaves like `""`. -/
def optStr (s : Option String) : String :=
  s.getD ""

/-- The synthesized origin key
`` `${p.id}/${o.name || o.address || String(idx)}` ``. -/
def originKey (poolId : String) (o : CFOrigin) (idx : Nat) : String :=
  poolId ++ "/" ++ jsOrStr (optStr o.name) (jsOrStr (optStr o.address) (toString idx))

/-- The body of the inner `origins.forEach((o, idx) => ...)`:
read `cur`, read `prev` from the previous snapshot, `nextMap.set(key, cur)`,
and push a change when `!firstLoad && prev !== cur && typeof cur === "boolean"`. -/
def diffStep (firstLoad : Bool) (prev : Snapshot) (poolId : String)
    (st : List Change × Snapshot) (e : Nat × CFOrigin) : List Change × Snapshot :=
  let o := e.2
  let key := originKey poolId o e.1
  let cur := o.healthy
  let prevVal := snapGet prev key
  let next := snapSet st.2 key cur
  if !firstLoad && (prevVal != cur) && cur.isSome then
    (st.1 ++ [if cur == some true then Change.online else Change.offline], next)
  else
    (st.1, next)

/-- The whole diff pass: `changes` starts empty, `nextMap` starts as a fresh
`Map`, pools and origins are traversed in order (`items.forEach`, inner
`origins.forEach` with the positional index). -/
def diffOrigins (firstLoad : Bool) (prev : Snapshot) (items : List CFPool) :
    List Change × Snapshot :=
  items.foldl (fun st p => (p.origins.enum).foldl (diffStep firstLoad prev p.id) st) ([], [])

/-! ### The notifier (Dashboard.tsx lines 279–290) -/

/-- The cue sequence of one notify pass: `offs` repetitions of the offline
cue (`for (let i = 0; i < offs; i++) await playOfflineSound()`) followed by
`ons` repetitions of the online cue, where the counts are the filters of
`changes`. -/
def cueSeq (changes : List Change) : List Cue :=
  List.replicate (changes.filter (fun c => c == Change.offline)).length Cue.offline ++
    List.replicate (changes.filter (fun c => c == Change.online)).length Cue.online

/-- The guard `if (soundEnabled && changes.length)` around playback. -/
def notifyCues (soundEnabled : Bool) (changes : List Change) : List Cue :=
  if soundEnabled && changes.length != 0 then cueSeq changes else []

/-! ### The poll-loop cycle (`load` in Dashboard.tsx lines 244–299) -/

/-- The component state touched by one cycle: React state (`pools`,
`loading`, `err`) and the refs (`prevStatusRef`, `firstLoadRef`). -/
structure DashState where
  pools : List CFPool
  loading : Bool
  err : String
  prevStatus : Snapshot
  firstLoad : Bool
deriving DecidableEq, Repr

/-- How the awaited `fetchAllPools` call resolves, as `load` observes it:
a pool list, an abort error (`isAbortError e`), or any other error with
its message. -/
inductive FetchOutcome where
  | success (items : List CFPool)
  | abort (msg : String)
  | failure (msg : String)
deriving DecidableEq, Repr

/-- One `load` cycle. `alive` is the closure flag read when the fetch
settles. Success path: early return when torn down, else diff, swap
snapshots, clear the first-load flag, play cues, `setPools`. Catch path:
aborts (and anything after teardown) return silently, other errors
`setErr`. The `finally` block runs `setLoading(false)` only while alive.
Returns the new state and the cues played. -/
def load (alive soundEnabled : Bool) (st : DashState) (outcome : FetchOutcome) :
    DashState × List Cue :=
  match outcome with
  | .success items =>
    if !alive then (st, [])
    else
      let diffed := diffOrigins st.firstLoad st.prevStatus items
      let cues := notifyCues soundEnabled diffed.1
      ({ st with
          prevStatus := diffed.2
          firstLoad := false
          pools := items
          loading := false }, cues)
  | .abort _ =>
    if alive then ({ st with loading := false }, []) else (st, [])
  | .failure msg =>
    if alive then ({ st with err := msg, loading := false }, []) else (st, [])

/-- The synchronous prologue of the `useEffect` body at (re)activation:
`setLoading(true); setErr(""); firstLoadRef.current = true;
prevStatusRef.current.clear()`. -/
def activate (st : DashState) : DashState :=
  { st with loading := true, err := "", firstLoad := true, prevStatus := [] }

/-- What the Dashboard renders below the header. -/
inductive View where
  | spinner
  | errorPanel
  | table
deriving DecidableEq, Repr

/-- The render selection: `{loading && <CircularProgress/>}`,
`{!loading && err && <Card…/>}`, `{!loading && !err && <PoolsTable/>}`. -/
def render (st : DashState) : View :=
  if st.loading then View.spinner
  else if st.err != "" then View.errorPanel
  else View.table

/-! ### `fetchAllPools`, Dashboard.tsx variant (lines 194–227)

The server is a function from the requested page number (the `page` query
parameter) to the response. The result is the ordered list of page numbers
requested together with the outcome; `fuel` bounds the source's unbounded
`while (true)`. -/

namespace Dashboard

/-- The source line `const totalPages = data.result_info?.total_pages || 1` — JS `||`
treats both `undefined` and `0` as falsy. -/
def totalPagesOf (info : Option CFResultInfo) : Nat :=
  match info with
  | none => 1
  | some i =>
    match i.total_pages with
    | none => 1
    | some n => if n = 0 then 1 else n

/-- The loop of Dashboard.tsx's `fetchAllPools`, from `page` with
accumulator `acc`: request the page; on `!res.ok` throw
`` `HTTP ${res.status}: ${await res.text()}` ``; on `success=false` throw
`` `API error: ${JSON.stringify(data.errors || {})}` ``; else append
`data.result`, and stop when `page >= totalPages`. -/
def fetchAllPools (server : Nat → HttpResponse) :
    Nat → Nat → List CFPool → List Nat × Except String (List CFPool)
  | 0, _, _ => ([], Except.error "out of fuel")
  | fuel + 1, page, acc =>
    let res := server page
    if !res.ok then
      ([page], Except.error ("HTTP " ++ toString res.status ++ ": " ++ res.bodyText))
    else
      let data := res.json
      if !data.success then
        ([page], Except.error ("API error: " ++ data.errors.getD "\x7b\x7d"))
      else
        let all := acc ++ data.result
        let totalPages := totalPagesOf data.result_info
        if totalPages ≤ page then
          ([page], Except.ok all)
        else
          let rest := fetchAllPools server fuel (page + 1) all
          (page :: rest.1, rest.2)

end Dashboard

/-! ### `fetchAllPools`, App.tsx variant (lines 107–157)

This variant requests the same URL every time (no `page`/`per_page` query
parameters), so the server argument is indexed by the internal page
counter, i.e. the ordinal of the request within one fetch cycle. -/

namespace App

/-- The source line `const totalPages = info.total_pages ?? (items.length < perPage ? page
: page + 1)` with `info = data.result_info ?? {}` — `??` is nullish
coalescing, so a present `0` is kept. -/
def totalPagesOf (info : Option CFResultInfo) (itemsLen page : Nat) : Nat :=
  match info with
  | none => if itemsLen < 50 then page else page + 1
  | some i =>
    match i.total_pages with
    | none => if itemsLen < 50 then page else page + 1
    | some n => n

/-- The message `` `Cloudflare API error (${res.status}): ${text || res.statusText}` ``
with `text = await res.text().catch(() => "")`. -/
def httpErrMsg (r : HttpResponse) : String :=
  "Cloudflare API error (" ++ toString r.status ++ "): " ++
    jsOrStr r.bodyText r.statusText

/-- The `success=false` message. `JSON.stringify(data?.errors || data)`
stringifies the whole response when `errors` is falsy; that fallback text
is abstracted (no claim depends on it). -/
def apiErrMsg (data : CFListResponse) : String :=
  "Cloudflare API returned success=false: " ++
    data.errors.getD "(response body)"

/-- The loop of App.tsx's `fetchAllPools`, from `page` with accumulator
`acc`. -/
def fetchAllPools (server : Nat → HttpResponse) :
    Nat → Nat → List CFPool → List Nat × Except String (List CFPool)
  | 0, _, _ => ([], Except.error "out of fuel")
  | fuel + 1, page, acc =>
    let res := server page
    if !res.ok then
      ([page], Except.error (httpErrMsg res))
    else
      let data := res.json
      if !data.success then
        ([page], Except.error (apiErrMsg data))
      else
        let items := data.result
        let all := acc ++ items
        let totalPages := totalPagesOf data.result_info items.length page
        if totalPages ≤ page then
          ([page], Except.ok all)
        else
          let rest := fetchAllPools server fuel (page + 1) all
          (page :: rest.1, rest.2)

end App

/-! ### Write-level characterization of the diff pass

The diff pass touches the snapshot through one `(key, cur)` write per
origin; the lemmas below recast `diffOrigins` as a traversal of that
write list, which every claim about the differ then instantiates. -/

/-- The event one origin write contributes: `some` exactly under the
source's guard `!firstLoad && prev !== cur && typeof cur === "boolean"`. -/
def emitEvent (firstLoad : Bool) (prevVal cur : Option Bool) : Option Change :=
  if !firstLoad && (prevVal != cur) && cur.isSome then
    some (if cur == some true then Change.online else Change.offline)
  else none

/-- Step `diffStep` with the key and current value precomputed. -/
def diffWriteStep (firstLoad : Bool) (prev : Snapshot)
    (st : List Change × Snapshot) (w : String × Option Bool) :
    List Change × Snapshot :=
  (match emitEvent firstLoad (snapGet prev w.1) w.2 with
    | some c => st.1 ++ [c]
    | none => st.1,
   snapSet st.2 w.1 w.2)

/-- The `(key, health)` writes one pool contributes, in origin order. -/
def poolWrites (p : CFPool) : List (String × Option Bool) :=
  p.origins.enum.map (fun e => (originKey p.id e.2 e.1, e.2.healthy))

/-- All writes of one diff pass, in traversal order. -/
def allWrites (items : List CFPool) : List (String × Option Bool) :=
  items.flatMap poolWrites

/-- The snapshot the diff pass builds — a function of the fetched pools
only, independent of the previous snapshot and the first-load flag. -/
def buildSnapshot (items : List CFPool) : Snapshot :=
  snapWriteAll [] (allWrites items)

/-- The events of one diff pass, write by write. -/
def passEvents (firstLoad : Bool) (prev : Snapshot) (items : List CFPool) :
    List Change :=
  (allWrites items).filterMap (fun w => emitEvent firstLoad (snapGet prev w.1) w.2)

theorem diffStep_eq_writeStep (fl : Bool) (prev : Snapshot) (pid : String)
    (st : List Change × Snapshot) (e : Nat × CFOrigin) :
    diffStep fl prev pid st e =
      diffWriteStep fl prev st (originKey pid e.2 e.1, e.2.healthy) := by
  unfold diffStep diffWriteStep emitEvent
  by_cases h : (!fl && (snapGet prev (originKey pid e.2 e.1) != e.2.healthy)
      && e.2.healthy.isSome) = true
  · simp only [h, if_true]
  · simp only [h, if_false, Bool.false_eq_true]

theorem foldl_diffWriteStep (fl : Bool) (prev : Snapshot)
    (ws : List (String × Option Bool)) (st : List Change × Snapshot) :
    ws.foldl (diffWriteStep fl prev) st =
      (st.1 ++ ws.filterMap (fun w => emitEvent fl (snapGet prev w.1) w.2),
       snapWriteAll st.2 ws) := by
  induction ws generalizing st with
  | nil => simp [snapWriteAll]
  | cons w rest ih =>
    rw [List.foldl_cons, ih]
    cases hv : emitEvent fl (snapGet prev w.1) w.2 with
    | none => simp [diffWriteStep, hv, snapWriteAll]
    | some c => simp [diffWriteStep, hv, snapWriteAll]

theorem foldl_allWrites {β : Type} (F : β → String × Option Bool → β)
    (items : List CFPool) (init : β) :
    items.foldl (fun st p => (poolWrites p).foldl F st) init =
      (allWrites items).foldl F init := by
  induction items generalizing init with
  | nil => simp [allWrites]
  | cons p rest ih => simp [allWrites, List.foldl_append, ih]

/-- Central lemma: the diff pass produces exactly the per-write events, and
a snapshot that depends on the fetched pools alone. -/
theorem diffOrigins_eq (fl : Bool) (prev : Snapshot) (items : List CFPool) :
    diffOrigins fl prev items = (passEvents fl prev items, buildSnapshot items) := by
  unfold diffOrigins
  have hstep : ∀ (p : CFPool) (st : List Change × Snapshot),
      (p.origins.enum).foldl (diffStep fl prev p.id) st =
        (poolWrites p).foldl (diffWriteStep fl prev) st := by
    intro p st
    rw [poolWrites, List.foldl_map]
    congr 1
    funext s e
    exact diffStep_eq_writeStep fl prev p.id s e
  calc
    items.foldl (fun st p => (p.origins.enum).foldl (diffStep fl prev p.id) st) ([], [])
        = items.foldl (fun st p => (poolWrites p).foldl (diffWriteStep fl prev) st) ([], []) := by
          congr 1
          funext st p
          exact hstep p st
    _ = (allWrites items).foldl (diffWriteStep fl prev) ([], []) :=
          foldl_allWrites (diffWriteStep fl prev) items ([], [])
    _ = (passEvents fl prev items, buildSnapshot items) := by
          rw [foldl_diffWriteStep]
          simp [passEvents, buildSnapshot, snapWriteAll]

/-- On the designated first invocation no write emits an event. -/
theorem emitEvent_firstLoad (prevVal cur : Option Bool) :
    emitEvent true prevVal cur = none := rfl

/-! ### `Map.get` / `Map.set` lemmas for the snapshot -/

theorem find?_replace_same (m : Snapshot) (k : String) (v : Option Bool)
    (h : (m.any fun e => e.1 == k) = true) :
    (m.map (fun e => if e.1 == k then (k, v) else e)).find? (fun e => e.1 == k)
      = some (k, v) := by
  induction m with
  | nil => simp at h
  | cons e rest ih =>
    rw [List.map_cons]
    by_cases he : (e.1 == k) = true
    · rw [if_pos he, List.find?_cons]
      simp
    · have he0 : (e.1 == k) = false := by
        cases hb : (e.1 == k) with
        | true => exact absurd hb he
        | false => rfl
      have hr : (rest.any fun e => e.1 == k) = true := by
        rw [List.any_cons, he0, Bool.false_or] at h
        exact h
      rw [if_neg he, List.find?_cons, he0]
      exact ih hr

theorem find?_replace_other (m : Snapshot) (k : String) (v : Option Bool)
    (k' : String) (hk : k' ≠ k) :
    (m.map (fun e => if e.1 == k then (k, v) else e)).find? (fun e => e.1 == k')
      = m.find? (fun e => e.1 == k') := by
  induction m with
  | nil => simp
  | cons e rest ih =>
    rw [List.map_cons]
    by_cases he : (e.1 == k) = true
    · have he' : e.1 = k := beq_iff_eq.mp he
      have h1 : (k == k') = false := by
        cases hb : (k == k') with
        | true => exact absurd (beq_iff_eq.mp hb).symm hk
        | false => rfl
      have h2 : (e.1 == k') = false := by
        rw [he']
        exact h1
      rw [if_pos he, List.find?_cons, List.find?_cons, h1, h2]
      exact ih
    · rw [if_neg he, List.find?_cons, List.find?_cons]
      cases he2 : (e.1 == k') with
      | true => rfl
      | false => exact ih

theorem snapFind_snapSet (m : Snapshot) (k : String) (v : Option Bool) (k' : String) :
    snapFind (snapSet m k v) k' = if k' = k then some v else snapFind m k' := by
  unfold snapSet
  by_cases hmem : (m.any fun e => e.1 == k) = true
  · rw [if_pos hmem]
    by_cases hk : k' = k
    · subst hk
      rw [if_pos rfl]
      unfold snapFind
      rw [find?_replace_same m k' v hmem]
      rfl
    · rw [if_neg hk]
      unfold snapFind
      rw [find?_replace_other m k v k' hk]
  · rw [if_neg hmem]
    have hall : ∀ e ∈ m, ¬(e.1 == k) = true := by
      intro e hem hek
      exact hmem (List.any_eq_true.mpr ⟨e, hem, hek⟩)
    unfold snapFind
    rw [List.find?_append]
    by_cases hk : k' = k
    · subst hk
      have hnone : m.find? (fun e => e.1 == k') = none :=
        List.find?_eq_none.mpr hall
      simp [hnone, List.find?_cons]
    · have h1 : (k == k') = false := by
        cases hb : (k == k') with
        | true => exact absurd (beq_iff_eq.mp hb).symm hk
        | false => rfl
      cases hf : m.find? (fun e => e.1 == k') with
      | none => simp [hf, List.find?_cons, h1, hk]
      | some e => simp [hf, hk]

theorem getLast?_cons_eq {α : Type} (a : α) (l : List α) :
    (a :: l).getLast? = some (l.getLast?.getD a) := by
  induction l generalizing a with
  | nil => rfl
  | cons b l ih =>
    rw [List.getLast?_cons_cons, ih b]
    simp

/-- Last write wins: `Map.get` after a sequence of `Map.set`s returns the
value of the last write to that key, falling back to the initial map. -/
theorem snapFind_snapWriteAll (ws : List (String × Option Bool)) (m : Snapshot)
    (k : String) :
    snapFind (snapWriteAll m ws) k =
      match (ws.filter (fun w => w.1 == k)).getLast? with
      | some w => some w.2
      | none => snapFind m k := by
  induction ws generalizing m with
  | nil => simp [snapWriteAll]
  | cons w rest ih =>
    have hstep : snapWriteAll m (w :: rest) = snapWriteAll (snapSet m w.1 w.2) rest := rfl
    rw [hstep, ih, List.filter_cons]
    by_cases hw : (w.1 == k) = true
    · have hk : k = w.1 := (beq_iff_eq.mp hw).symm
      rw [if_pos hw, getLast?_cons_eq]
      cases hl : (rest.filter (fun w => w.1 == k)).getLast? with
      | none => simp [hl, snapFind_snapSet, hk]
      | some w' => simp [hl]
    · have hk : ¬k = w.1 := by
        intro hkk
        rw [hkk] at hw
        simp at hw
      rw [if_neg hw]
      cases hl : (rest.filter (fun w => w.1 == k)).getLast? with
      | none => simp [hl, snapFind_snapSet, hk]
      | some w' => simp [hl]

/-- Lookup `Map.get` on the snapshot the diff pass builds: the last write to the
key, `none` when the key was never written. -/
theorem snapFind_buildSnapshot (items : List CFPool) (k : String) :
    snapFind (buildSnapshot items) k =
      ((allWrites items).filter (fun w => w.1 == k)).getLast?.map (fun w => w.2) := by
  rw [buildSnapshot, snapFind_snapWriteAll]
  cases h : ((allWrites items).filter (fun w => w.1 == k)).getLast? with
  | none => simp [h, snapFind]
  | some w => simp [h]

/-- The built snapshot has exactly the synthesized keys of the fetch. -/
theorem snapFind_buildSnapshot_isSome (items : List CFPool) (k : String) :
    (snapFind (buildSnapshot items) k).isSome = true ↔
      k ∈ (allWrites items).map (fun w => w.1) := by
  rw [snapFind_buildSnapshot]
  have hmap : (((allWrites items).filter (fun w => w.1 == k)).getLast?.map
      (fun w => w.2)).isSome
      = ((allWrites items).filter (fun w => w.1 == k)).getLast?.isSome := by
    cases ((allWrites items).filter (fun w => w.1 == k)).getLast? with
    | none => rfl
    | some w => rfl
  rw [hmap, List.getLast?_isSome]
  constructor
  · intro h
    obtain ⟨w, hw⟩ := List.exists_mem_of_ne_nil _ h
    have hmem := List.mem_filter.mp hw
    exact List.mem_map.mpr ⟨w, hmem.1, (beq_iff_eq.mp hmem.2)⟩
  · intro h
    obtain ⟨w, hw, hwk⟩ := List.mem_map.mp h
    intro hnil
    have hwin : w ∈ (allWrites items).filter (fun w => w.1 == k) :=
      List.mem_filter.mpr ⟨hw, beq_iff_eq.mpr hwk⟩
    rw [hnil] at hwin
    exact List.not_mem_nil w hwin

/-- If index `j` satisfies `p` and nothing after it does, the filtered
list ends at the `j`-th element. -/
theorem getLast?_filter_of_last {α : Type} (p : α → Bool) (l : List α) (j : Nat)
    (hj : j < l.length) (hpj : p (l.get ⟨j, hj⟩) = true)
    (hlast : ∀ i (hi : i < l.length), j < i → p (l.get ⟨i, hi⟩) = false) :
    (l.filter p).getLast? = some (l.get ⟨j, hj⟩) := by
  have hdrop : (l.drop (j + 1)).filter p = [] := by
    rw [List.filter_eq_nil_iff]
    intro a ha
    obtain ⟨i, hi, hget⟩ := List.mem_iff_getElem.mp ha
    have hlen : j + 1 + i < l.length := by
      rw [List.length_drop] at hi
      omega
    have hval : a = l.get ⟨j + 1 + i, hlen⟩ := by
      rw [← hget, List.getElem_drop]
      simp [List.get_eq_getElem]
    rw [hval, hlast (j + 1 + i) hlen (by omega)]
    simp
  have hjq : l[j]? = some (l.get ⟨j, hj⟩) := by
    rw [List.getElem?_eq_getElem hj]
    simp [List.get_eq_getElem]
  have hpj2 : p l[j] = true := hpj
  have htake : (l.take (j + 1)).filter p = (l.take j).filter p ++ [l.get ⟨j, hj⟩] := by
    rw [List.take_succ, hjq, List.filter_append]
    simp [hpj2, List.get_eq_getElem]
  have hsplit : l.filter p = (l.take (j + 1)).filter p ++ (l.drop (j + 1)).filter p := by
    rw [← List.filter_append, List.take_append_drop]
  rw [hsplit, hdrop, htake, List.append_nil, List.getLast?_concat]

/-! ### One-step unfoldings of the two fetch loops -/

theorem fetchStepD (server : Nat → HttpResponse) (fuel page : Nat)
    (acc : List CFPool) (hok : (server page).ok = true)
    (hsucc : (server page).json.success = true) :
    Dashboard.fetchAllPools server (fuel + 1) page acc =
      if Dashboard.totalPagesOf (server page).json.result_info ≤ page then
        ([page], Except.ok (acc ++ (server page).json.result))
      else
        (page ::
          (Dashboard.fetchAllPools server fuel (page + 1)
            (acc ++ (server page).json.result)).1,
          (Dashboard.fetchAllPools server fuel (page + 1)
            (acc ++ (server page).json.result)).2) := by
  simp only [Dashboard.fetchAllPools]
  simp [hok, hsucc]

theorem fetchStepDHttpErr (server : Nat → HttpResponse) (fuel page : Nat)
    (acc : List CFPool) (hbad : (server page).ok = false) :
    Dashboard.fetchAllPools server (fuel + 1) page acc =
      ([page], Except.error
        ("HTTP " ++ toString (server page).status ++ ": " ++ (server page).bodyText)) := by
  simp only [Dashboard.fetchAllPools]
  simp [hbad]

theorem fetchStepDApiErr (server : Nat → HttpResponse) (fuel page : Nat)
    (acc : List CFPool) (hok : (server page).ok = true)
    (hsucc : (server page).json.success = false) :
    Dashboard.fetchAllPools server (fuel + 1) page acc =
      ([page], Except.error
        ("API error: " ++ (server page).json.errors.getD "\x7b\x7d")) := by
  simp only [Dashboard.fetchAllPools]
  simp [hok, hsucc]

theorem fetchStepA (server : Nat → HttpResponse) (fuel page : Nat)
    (acc : List CFPool) (hok : (server page).ok = true)
    (hsucc : (server page).json.success = true) :
    App.fetchAllPools server (fuel + 1) page acc =
      if App.totalPagesOf (server page).json.result_info
          (server page).json.result.length page ≤ page then
        ([page], Except.ok (acc ++ (server page).json.result))
      else
        (page ::
          (App.fetchAllPools server fuel (page + 1)
            (acc ++ (server page).json.result)).1,
          (App.fetchAllPools server fuel (page + 1)
            (acc ++ (server page).json.result)).2) := by
  simp only [App.fetchAllPools]
  simp [hok, hsucc]

/-! ### Small list helpers -/

theorem map_const_eq_replicate {α β : Type} (l : List α) (b : β) :
    l.map (fun _ => b) = List.replicate l.length b := by
  induction l with
  | nil => rfl
  | cons a rest ih => simp [List.replicate_succ, ih]

theorem filter_change_length_sum (changes : List Change) :
    (changes.filter (fun c => c == Change.offline)).length +
      (changes.filter (fun c => c == Change.online)).length = changes.length := by
  induction changes with
  | nil => rfl
  | cons c rest ih =>
    cases c <;> simp [List.filter_cons, ih] <;> omega

theorem pairwise_replicate_of_refl {α : Type} (R : α → α → Prop) (x : α)
    (hx : R x x) (n : Nat) : List.Pairwise R (List.replicate n x) := by
  induction n with
  | zero => simp
  | succ n ih =>
    rw [List.replicate_succ, List.pairwise_cons]
    exact ⟨fun b hb => by rw [List.eq_of_mem_replicate hb]; exact hx, ih⟩

/-! ## Claims -/

/-- Claim C1, counterexample: on a non-first invocation, with a previous
snapshot in which the origin's synthesized key is absent (so its recorded
value is the JS `undefined`) and a current boolean health `true`, the diff
pass does append an "online" event — the claim asserts that no event is
produced when the previous value is undefined. -/
theorem c1_undefined_prev_counterexample :
    snapGet [] "p/web" = none
    ∧ (diffOrigins false []
        [{ id := "p", name := "pool", description := none,
           origins := [{ name := some "web", address := none,
                         enabled := none, healthy := some true }],
           healthy := none }]).1 = [Change.online] :=
  ⟨rfl, rfl⟩

/-- Claim C1 (amended): on a non-first invocation the diff pass appends an
event for an origin's synthesized key exactly when the current health is a
boolean and differs — as a JS strict comparison of tri-state values — from
the previously recorded value; the previous value is not required to be a
boolean, so a key whose prior value is undefined (absent, or recorded as
undefined) does produce an event whenever the current value is a boolean.
Transitions to an undefined current value still never produce an event. -/
theorem c1_event_condition (prev : Snapshot) (items : List CFPool) :
    (diffOrigins false prev items).1 =
      (allWrites items).filterMap (fun w =>
        if (snapGet prev w.1 != w.2) && w.2.isSome then
          some (if w.2 == some true then Change.online else Change.offline)
        else none) := by
  rw [diffOrigins_eq]
  rfl

/-- Claim C5: the first cycle after a (re)activation of the loop — the
explicit first-load flag set by `activate` — emits no transition events
for any input pool list and any prior snapshot contents, triggers no audio,
still records the snapshot, and clears the first-load flag, so events
become possible only from the second cycle onward. -/
theorem c5_first_cycle_silent (st : DashState) (items : List CFPool)
    (sound : Bool) (prev : Snapshot) :
    (diffOrigins true prev items).1 = []
    ∧ (load true sound (activate st) (.success items)).2 = []
    ∧ (load true sound (activate st) (.success items)).1.prevStatus
        = buildSnapshot items
    ∧ (load true sound (activate st) (.success items)).1.firstLoad = false := by
  have hdiff : ∀ pr : Snapshot, (diffOrigins true pr items).1 = [] := by
    intro pr
    rw [diffOrigins_eq]
    simp [passEvents, emitEvent_firstLoad]
  refine ⟨hdiff prev, ?_, ?_, ?_⟩
  · simp [load, activate, hdiff, notifyCues]
  · simp [load, activate, diffOrigins_eq]
  · simp [load, activate]

/-- Claim C8: after a successful cycle the live snapshot is entirely
replaced by the newly built map — a function of the fetched pools alone,
with no contribution from the old snapshot. A key is present in the new
snapshot exactly when the current fetch produced it (an entry is created
even when the recorded tri-state value is undefined), and the value stored
under a key is the last value the pass wrote to it. -/
theorem c8_snapshot_replaced (st : DashState) (items : List CFPool)
    (sound : Bool) :
    (load true sound st (.success items)).1.prevStatus = buildSnapshot items
    ∧ (∀ k, (snapFind (buildSnapshot items) k).isSome = true ↔
        k ∈ (allWrites items).map (fun w => w.1))
    ∧ (∀ k, snapFind (buildSnapshot items) k =
        ((allWrites items).filter (fun w => w.1 == k)).getLast?.map
          (fun w => w.2)) :=
  ⟨by simp [load, diffOrigins_eq],
   fun k => snapFind_buildSnapshot_isSome items k,
   fun k => snapFind_buildSnapshot items k⟩

/-- Claim C10: when two origins of one pool at positions `i < j` synthesize
the same key (and nothing later in the pool does), the snapshot built by
the diff pass records the health of the later origin under that key,
silently overwriting the earlier origin's value; and the events of the
pass compare every origin — in particular both duplicates — against the
previous snapshot's value for its key, not against the partially built
next snapshot. -/
theorem c10_duplicate_key_overwrite (prev : Snapshot) (p : CFPool)
    (i j : Nat) (k : String)
    (hi : i < p.origins.length) (hj : j < p.origins.length) (hij : i < j)
    (hki : originKey p.id (p.origins.get ⟨i, hi⟩) i = k)
    (hkj : originKey p.id (p.origins.get ⟨j, hj⟩) j = k)
    (hlater : ∀ l (hl : l < p.origins.length), j < l →
        originKey p.id (p.origins.get ⟨l, hl⟩) l ≠ k) :
    snapFind ((diffOrigins false prev [p]).2) k
        = some (p.origins.get ⟨j, hj⟩).healthy
    ∧ (diffOrigins false prev [p]).1 =
        (p.origins.enum).filterMap (fun e =>
          emitEvent false (snapGet prev (originKey p.id e.2 e.1)) e.2.healthy) := by
  have hall : allWrites [p] = poolWrites p := by simp [allWrites]
  have hjw : j < (poolWrites p).length := by
    rw [poolWrites, List.length_map, List.enum_length]
    exact hj
  constructor
  · rw [diffOrigins_eq]
    show snapFind (buildSnapshot [p]) k = _
    have hw : (poolWrites p).get ⟨j, hjw⟩
        = (originKey p.id (p.origins.get ⟨j, hj⟩) j,
            (p.origins.get ⟨j, hj⟩).healthy) := by
      simp [poolWrites, List.get_eq_getElem, List.getElem_map, List.getElem_enum]
    have hpj : (((poolWrites p).get ⟨j, hjw⟩).1 == k) = true := by
      rw [hw]
      exact beq_iff_eq.mpr hkj
    have hrest : ∀ l (hl : l < (poolWrites p).length), j < l →
        ((fun w => w.1 == k) ((poolWrites p).get ⟨l, hl⟩)) = false := by
      intro l hl hjl
      have hlo : l < p.origins.length := by
        rw [poolWrites, List.length_map, List.enum_length] at hl
        exact hl
      have hwl : (poolWrites p).get ⟨l, hl⟩
          = (originKey p.id (p.origins.get ⟨l, hlo⟩) l,
              (p.origins.get ⟨l, hlo⟩).healthy) := by
        simp [poolWrites, List.get_eq_getElem, List.getElem_map, List.getElem_enum]
      have hbeq : (originKey p.id (p.origins.get ⟨l, hlo⟩) l == k) = false := by
        cases hb : (originKey p.id (p.origins.get ⟨l, hlo⟩) l == k) with
        | true => exact absurd (beq_iff_eq.mp hb) (hlater l hlo hjl)
        | false => rfl
      rw [hwl]
      exact hbeq
    have hfil := getLast?_filter_of_last (fun w => w.1 == k) (poolWrites p)
      j hjw hpj hrest
    rw [snapFind_buildSnapshot, hall, hfil, hw]
    rfl
  · rw [diffOrigins_eq]
    show passEvents false prev [p] = _
    rw [passEvents, hall, poolWrites, List.filterMap_map]
    rfl

/-- The first of two duplicate-key origins used by the C10 witness. -/
def dupOriginUp : CFOrigin :=
  { name := some "web", address := none, enabled := none, healthy := some true }

/-- The second of two duplicate-key origins used by the C10 witness. -/
def dupOriginDown : CFOrigin :=
  { name := some "web", address := none, enabled := none, healthy := some false }

/-- A pool whose two origins synthesize the same key, for the C10 witness. -/
def dupPool : CFPool :=
  { id := "p1", name := "pool", description := none,
    origins := [dupOriginUp, dupOriginDown], healthy := none }

/-- Claim C10, witness: a pool with two origins sharing the name "web"
(positions 0 and 1); the snapshot records the later origin's health. -/
theorem c10_duplicate_key_overwrite_witness :
    (originKey "p1" dupOriginUp 0 = "p1/web"
      ∧ originKey "p1" dupOriginDown 1 = "p1/web")
    ∧ snapFind ((diffOrigins false [] [dupPool]).2) "p1/web"
        = some (some false) := by
  have h := c10_duplicate_key_overwrite [] dupPool
    0 1 "p1/web" (by decide) (by decide) (by decide) rfl rfl
    (fun l hl hgt => absurd hgt (by simp [dupPool, dupOriginUp, dupOriginDown] at hl; omega))
  exact ⟨⟨rfl, rfl⟩, h.1⟩

/-- Claim C6: with sound enabled and a non-empty event list, the notify
pass plays one cue per event, all offline cues strictly before all online
cues regardless of the chronological order of the events, with the cues of
each class in chronological order; playback is serial by construction of
the cue sequence (each `await` completes before the next loop iteration). -/
theorem c6_offline_before_online (changes : List Change) (h : changes ≠ []) :
    notifyCues true changes =
        (changes.filter (fun c => c == Change.offline)).map (fun _ => Cue.offline)
          ++ (changes.filter (fun c => c == Change.online)).map (fun _ => Cue.online)
    ∧ (notifyCues true changes).length = changes.length
    ∧ List.Pairwise (fun a b => ¬(a = Cue.online ∧ b = Cue.offline))
        (notifyCues true changes) := by
  have hguard : (true && (changes.length != 0)) = true := by
    rw [Bool.true_and, bne_iff_ne]
    simpa [List.length_eq_zero] using h
  have hseq : notifyCues true changes = cueSeq changes := by
    rw [notifyCues, hguard, if_pos rfl]
  have hform : notifyCues true changes =
      (changes.filter (fun c => c == Change.offline)).map (fun _ => Cue.offline)
        ++ (changes.filter (fun c => c == Change.online)).map (fun _ => Cue.online) := by
    rw [hseq, cueSeq, map_const_eq_replicate, map_const_eq_replicate]
  refine ⟨hform, ?_, ?_⟩
  · rw [hform]
    simp [filter_change_length_sum changes]
  · rw [hseq, cueSeq]
    rw [List.pairwise_append]
    refine ⟨pairwise_replicate_of_refl _ Cue.offline (by simp) _,
      pairwise_replicate_of_refl _ Cue.online (by simp) _, ?_⟩
    intro a ha b hb
    rw [List.eq_of_mem_replicate ha]
    simp

/-- Claim C6, witness: events `[offline, online, offline]` produce the
playback `[offline, offline, online]`. -/
theorem c6_offline_before_online_witness :
    ([Change.offline, Change.online, Change.offline] ≠ [])
    ∧ notifyCues true [Change.offline, Change.online, Change.offline]
        = [Cue.offline, Cue.offline, Cue.online] := by
  refine ⟨by decide, ?_⟩
  rw [(c6_offline_before_online
    [Change.offline, Change.online, Change.offline] (by decide)).1]
  rfl

/-- Claim C7: a cycle whose fetch settles as an abort error, or that is
torn down (`alive` cleared) before the fetch settles, leaves the snapshot,
the first-load flag, the pools state and the error message untouched and
plays no audio — cancellation is swallowed silently. -/
theorem c7_cancellation_silent (st : DashState) (sound alive : Bool)
    (outcome : FetchOutcome)
    (h : (∃ msg, outcome = FetchOutcome.abort msg) ∨ alive = false) :
    (load alive sound st outcome).1.prevStatus = st.prevStatus
    ∧ (load alive sound st outcome).1.firstLoad = st.firstLoad
    ∧ (load alive sound st outcome).1.pools = st.pools
    ∧ (load alive sound st outcome).1.err = st.err
    ∧ (load alive sound st outcome).2 = [] := by
  rcases h with ⟨msg, rfl⟩ | rfl
  · cases alive <;> simp [load]
  · cases outcome <;> simp [load]

/-- Claim C7, witness: an abort error observed while the loop is still
alive changes nothing user-visible. -/
theorem c7_cancellation_silent_witness :
    ((∃ msg, FetchOutcome.abort "AbortError" = FetchOutcome.abort msg)
        ∨ true = false)
    ∧ (load true false ⟨[], true, "", [], true⟩
        (FetchOutcome.abort "AbortError")).1.pools = []
    ∧ (load true false ⟨[], true, "", [], true⟩
        (FetchOutcome.abort "AbortError")).1.err = ""
    ∧ (load true false ⟨[], true, "", [], true⟩
        (FetchOutcome.abort "AbortError")).2 = [] := by
  have h := c7_cancellation_silent ⟨[], true, "", [], true⟩ false true
    (FetchOutcome.abort "AbortError") (Or.inl ⟨"AbortError", rfl⟩)
  exact ⟨Or.inl ⟨"AbortError", rfl⟩, h.2.2.1, h.2.2.2.1, h.2.2.2.2⟩

/-- Claim C9: once a non-cancellation failure stores a non-empty error
message, a later successful cycle updates the pools state but leaves the
message intact, so the render selection still shows the error panel in
place of the table; only re-activation of the loop resets the message to
the empty string. -/
theorem c9_error_sticky (st : DashState) (items : List CFPool) (sound : Bool)
    (msg : String) (h : msg ≠ "") :
    (load true sound ((load true sound st (.failure msg)).1)
        (.success items)).1.err = msg
    ∧ (load true sound ((load true sound st (.failure msg)).1)
        (.success items)).1.pools = items
    ∧ render ((load true sound ((load true sound st (.failure msg)).1)
        (.success items)).1) = View.errorPanel
    ∧ (activate ((load true sound ((load true sound st (.failure msg)).1)
        (.success items)).1)).err = "" := by
  have hbne : (msg != "") = true := by
    rw [bne_iff_ne]
    exact h
  refine ⟨?_, ?_, ?_, ?_⟩ <;> simp [load, render, activate, hbne]

/-- Claim C9, witness: after a failure with message "boom", a successful
cycle leaves the error panel showing. -/
theorem c9_error_sticky_witness :
    ("boom" ≠ "")
    ∧ (load true false ((load true false ⟨[], true, "", [], true⟩
        (FetchOutcome.failure "boom")).1) (FetchOutcome.success [])).1.err = "boom"
    ∧ render ((load true false ((load true false ⟨[], true, "", [], true⟩
        (FetchOutcome.failure "boom")).1) (FetchOutcome.success [])).1)
        = View.errorPanel := by
  have h := c9_error_sticky ⟨[], true, "", [], true⟩ [] false "boom" (by decide)
  exact ⟨by decide, h.1, h.2.2.1⟩

/-- A pool with no origins, payload for the C2 counterexample server. -/
def fullPagePool : CFPool :=
  { id := "pool-1", name := "pool", description := none,
    origins := [], healthy := none }

/-- A server that always answers success with a full page of 50 pools and
no `result_info` at all, for the C2 counterexample. -/
def fullPageServer : Nat → HttpResponse := fun _ =>
  { status := 200, statusText := "OK", bodyText := "",
    json := { success := true, result := List.replicate 50 fullPagePool,
              result_info := none, errors := none } }

/-- Claim C2, counterexample: against a server that omits the page-count
metadata and returns a full page of exactly 50 items, the Dashboard
variant of `fetchAllPools` issues only the single request for page 1 and
returns that page — it does not continue until a page smaller than the
page size, because `total_pages || 1` turns absent metadata into a total
of one page. Fuel 5 shows the stop is the loop's own `break`. -/
theorem c2_pagination_fallback_counterexample :
    (fullPageServer 1).json.result_info = none
    ∧ (fullPageServer 1).json.result.length = 50
    ∧ Dashboard.fetchAllPools fullPageServer 5 1 []
        = ([1], Except.ok (List.replicate 50 fullPagePool)) :=
  ⟨rfl, rfl, rfl⟩

/-- Claim C2 (amended): the two `fetchAllPools` variants diverge when the
server omits `result_info.total_pages`. The App.tsx variant behaves as the
claim states: it continues to the next page exactly when the returned page
has at least the requested page size of 50 items, and stops when the page
is smaller. The Dashboard.tsx variant instead coalesces missing metadata
to a total of 1 (`|| 1`) and stops after the current page regardless of
its size. When the metadata is present with value `n ≥ 1`, both variants
stop exactly when the page counter reaches `n`. -/
theorem c2_pagination_fallback (server : Nat → HttpResponse)
    (fuel page : Nat) (acc : List CFPool) (hpage : 1 ≤ page)
    (hok : (server page).ok = true)
    (hsucc : (server page).json.success = true) :
    (((server page).json.result_info.bind (fun i => i.total_pages)) = none →
      App.fetchAllPools server (fuel + 1) page acc =
          (if (server page).json.result.length < 50 then
            ([page], Except.ok (acc ++ (server page).json.result))
          else
            (page ::
              (App.fetchAllPools server fuel (page + 1)
                (acc ++ (server page).json.result)).1,
              (App.fetchAllPools server fuel (page + 1)
                (acc ++ (server page).json.result)).2))
        ∧ Dashboard.fetchAllPools server (fuel + 1) page acc =
            ([page], Except.ok (acc ++ (server page).json.result)))
    ∧ (∀ n, ((server page).json.result_info.bind (fun i => i.total_pages)) = some n →
        1 ≤ n →
        App.fetchAllPools server (fuel + 1) page acc =
            (if n ≤ page then
              ([page], Except.ok (acc ++ (server page).json.result))
            else
              (page ::
                (App.fetchAllPools server fuel (page + 1)
                  (acc ++ (server page).json.result)).1,
                (App.fetchAllPools server fuel (page + 1)
                  (acc ++ (server page).json.result)).2))
          ∧ Dashboard.fetchAllPools server (fuel + 1) page acc =
              (if n ≤ page then
                ([page], Except.ok (acc ++ (server page).json.result))
              else
                (page ::
                  (Dashboard.fetchAllPools server fuel (page + 1)
                    (acc ++ (server page).json.result)).1,
                  (Dashboard.fetchAllPools server fuel (page + 1)
                    (acc ++ (server page).json.result)).2))) := by
  constructor
  · intro hmeta
    have htpD : Dashboard.totalPagesOf (server page).json.result_info = 1 := by
      cases hinfo : (server page).json.result_info with
      | none => rfl
      | some i =>
        rw [hinfo] at hmeta
        simp only [Option.some_bind] at hmeta
        simp [Dashboard.totalPagesOf, hmeta]
    have htpA : App.totalPagesOf (server page).json.result_info
        (server page).json.result.length page
        = if (server page).json.result.length < 50 then page else page + 1 := by
      cases hinfo : (server page).json.result_info with
      | none => rfl
      | some i =>
        rw [hinfo] at hmeta
        simp only [Option.some_bind] at hmeta
        simp [App.totalPagesOf, hmeta]
    constructor
    · rw [fetchStepA server fuel page acc hok hsucc, htpA]
      by_cases hlen : (server page).json.result.length < 50
      · rw [if_pos hlen, if_pos hlen, if_pos (le_refl page)]
      · rw [if_neg hlen, if_neg hlen, if_neg (by omega)]
    · rw [fetchStepD server fuel page acc hok hsucc, htpD, if_pos hpage]
  · intro n hmeta hn
    have htpD : Dashboard.totalPagesOf (server page).json.result_info = n := by
      cases hinfo : (server page).json.result_info with
      | none =>
        rw [hinfo] at hmeta
        simp at hmeta
      | some i =>
        rw [hinfo] at hmeta
        simp only [Option.some_bind] at hmeta
        rw [Dashboard.totalPagesOf, hmeta]
        show (if n = 0 then 1 else n) = n
        rw [if_neg (by omega)]
    have htpA : App.totalPagesOf (server page).json.result_info
        (server page).json.result.length page = n := by
      cases hinfo : (server page).json.result_info with
      | none =>
        rw [hinfo] at hmeta
        simp at hmeta
      | some i =>
        rw [hinfo] at hmeta
        simp only [Option.some_bind] at hmeta
        rw [App.totalPagesOf, hmeta]
    exact ⟨by rw [fetchStepA server fuel page acc hok hsucc, htpA],
           by rw [fetchStepD server fuel page acc hok hsucc, htpD]⟩

/-- A pool with no origins, payload for the C2 witness server. -/
def wPool : CFPool :=
  { id := "w", name := "w", description := none, origins := [], healthy := none }

/-- A server answering full pages of 50 pools without metadata, for the C2
witness. -/
def wServer : Nat → HttpResponse := fun _ =>
  { status := 200, statusText := "OK", bodyText := "",
    json := { success := true, result := List.replicate 50 wPool,
              result_info := none, errors := none } }

/-- Claim C2, witness: the Dashboard variant stops after page 1 of a
metadata-less full-page server. -/
theorem c2_pagination_fallback_witness :
    (1 ≤ 1 ∧ (wServer 1).ok = true ∧ (wServer 1).json.success = true
      ∧ ((wServer 1).json.result_info.bind (fun i => i.total_pages)) = none)
    ∧ Dashboard.fetchAllPools wServer 1 1 []
        = ([1], Except.ok ([] ++ (wServer 1).json.result)) := by
  refine ⟨⟨le_refl 1, rfl, rfl, rfl⟩, ?_⟩
  exact ((c2_pagination_fallback wServer 0 1 [] (le_refl 1) rfl rfl).1 rfl).2

/-- Claim C3: against any server that reports `total_pages = 3` and
succeeds on pages 1, 2 and 3, the Dashboard `fetchAllPools` issues exactly
the three page requests 1, 2, 3 in that order and returns the
concatenation of the three pages' result arrays in request order. -/
theorem c3_three_pages (server : Nat → HttpResponse) (fuel : Nat)
    (h1ok : (server 1).ok = true) (h1s : (server 1).json.success = true)
    (h1i : (server 1).json.result_info = some { total_pages := some 3 })
    (h2ok : (server 2).ok = true) (h2s : (server 2).json.success = true)
    (h2i : (server 2).json.result_info = some { total_pages := some 3 })
    (h3ok : (server 3).ok = true) (h3s : (server 3).json.success = true)
    (h3i : (server 3).json.result_info = some { total_pages := some 3 }) :
    Dashboard.fetchAllPools server (fuel + 3) 1 [] =
      ([1, 2, 3], Except.ok ((server 1).json.result ++ (server 2).json.result
        ++ (server 3).json.result)) := by
  have htp1 : Dashboard.totalPagesOf (server 1).json.result_info = 3 := by
    rw [h1i]
    rfl
  have htp2 : Dashboard.totalPagesOf (server 2).json.result_info = 3 := by
    rw [h2i]
    rfl
  have htp3 : Dashboard.totalPagesOf (server 3).json.result_info = 3 := by
    rw [h3i]
    rfl
  have e1 : Dashboard.fetchAllPools server (fuel + 3) 1 [] =
      (1 :: (Dashboard.fetchAllPools server (fuel + 2) 2
          ([] ++ (server 1).json.result)).1,
        (Dashboard.fetchAllPools server (fuel + 2) 2
          ([] ++ (server 1).json.result)).2) := by
    have e := fetchStepD server (fuel + 2) 1 [] h1ok h1s
    rw [htp1, if_neg (by omega)] at e
    exact e
  have e2 : Dashboard.fetchAllPools server (fuel + 2) 2
      ([] ++ (server 1).json.result) =
      (2 :: (Dashboard.fetchAllPools server (fuel + 1) 3
          ([] ++ (server 1).json.result ++ (server 2).json.result)).1,
        (Dashboard.fetchAllPools server (fuel + 1) 3
          ([] ++ (server 1).json.result ++ (server 2).json.result)).2) := by
    have e := fetchStepD server (fuel + 1) 2 ([] ++ (server 1).json.result) h2ok h2s
    rw [htp2, if_neg (by omega)] at e
    exact e
  have e3 : Dashboard.fetchAllPools server (fuel + 1) 3
      ([] ++ (server 1).json.result ++ (server 2).json.result) =
      ([3], Except.ok ([] ++ (server 1).json.result ++ (server 2).json.result
        ++ (server 3).json.result)) := by
    have e := fetchStepD server fuel 3
      ([] ++ (server 1).json.result ++ (server 2).json.result) h3ok h3s
    rw [htp3, if_pos (by omega)] at e
    exact e
  rw [e1, e2, e3]
  simp

/-- A pool with no origins, payload for the C3 witness server. -/
def w3Pool : CFPool :=
  { id := "w3", name := "w3", description := none, origins := [], healthy := none }

/-- A server that reports three total pages and succeeds everywhere, for
the C3 witness. -/
def w3Server : Nat → HttpResponse := fun _ =>
  { status := 200, statusText := "OK", bodyText := "",
    json := { success := true, result := [w3Pool],
              result_info := some { total_pages := some 3 }, errors := none } }

/-- Claim C3, witness: three requests and the concatenated result. -/
theorem c3_three_pages_witness :
    ((w3Server 1).ok = true ∧ (w3Server 1).json.success = true
      ∧ (w3Server 1).json.result_info = some { total_pages := some 3 })
    ∧ Dashboard.fetchAllPools w3Server 3 1 []
        = ([1, 2, 3], Except.ok [w3Pool, w3Pool, w3Pool]) := by
  refine ⟨⟨rfl, rfl, rfl⟩, ?_⟩
  have h := c3_three_pages w3Server 0 rfl rfl rfl rfl rfl rfl rfl rfl rfl
  simpa using h

/-- Claim C4: if the first page request of the Dashboard `fetchAllPools`
comes back with a non-success HTTP status, the loop throws an error whose
message carries the status code and the response body and issues no second
request (the request trace is exactly `[1]`); likewise a page-1 body with
`success = false` throws and stops after the single request. -/
theorem c4_error_stops (server server2 : Nat → HttpResponse)
    (fuel fuel2 : Nat)
    (hbad : (server 1).ok = false)
    (h2ok : (server2 1).ok = true)
    (h2s : (server2 1).json.success = false) :
    Dashboard.fetchAllPools server (fuel + 1) 1 [] =
      ([1], Except.error
        ("HTTP " ++ toString (server 1).status ++ ": " ++ (server 1).bodyText))
    ∧ Dashboard.fetchAllPools server2 (fuel2 + 1) 1 [] =
      ([1], Except.error
        ("API error: " ++ (server2 1).json.errors.getD "\x7b\x7d")) :=
  ⟨fetchStepDHttpErr server fuel 1 [] hbad,
   fetchStepDApiErr server2 fuel2 1 [] h2ok h2s⟩

/-- A server answering HTTP 403 with body "denied", for the C4 witness. -/
def err403Server : Nat → HttpResponse := fun _ =>
  { status := 403, statusText := "Forbidden", bodyText := "denied",
    json := { success := true, result := [], result_info := none,
              errors := none } }

/-- A server answering 200 with `success = false`, for the C4 witness. -/
def errApiServer : Nat → HttpResponse := fun _ =>
  { status := 200, statusText := "OK", bodyText := "",
    json := { success := false, result := [], result_info := none,
              errors := some "auth error" } }

/-- Claim C4, witness: a 403 on page 1 yields the message
"HTTP 403: denied" after a single request; a `success=false` body yields
"API error: auth error" after a single request. -/
theorem c4_error_stops_witness :
    ((err403Server 1).ok = false ∧ (errApiServer 1).ok = true
      ∧ (errApiServer 1).json.success = false)
    ∧ Dashboard.fetchAllPools err403Server 1 1 []
        = ([1], Except.error "HTTP 403: denied")
    ∧ Dashboard.fetchAllPools errApiServer 1 1 []
        = ([1], Except.error "API error: auth error") := by
  have h := c4_error_stops err403Server errApiServer 0 0 rfl rfl rfl
  exact ⟨⟨rfl, rfl, rfl⟩, h.1, h.2⟩

end CFMon
